import Mathlib

/-!
# Verification of the boltbuild coordinator/worker core

Shallow embedding of the boltbuild source (client.go, server.go, types and
the `Version` constant) together with the parts of the Go standard library
the claims depend on (`encoding/base64` StdEncoding, `path/filepath`
`Match`/`Clean`/`Join`/`Base`/`Ext`, `strings.Fields`).  Paths are modeled
with the Unix separator `'/'` (the wire format itself is slash-normalized by
the code on both ends), so `filepath.ToSlash`/`FromSlash` are identities.
All definitions are executable and kernel-reducible.
-/

namespace Boltbuild

/-! ## encoding/base64 StdEncoding

`Server.collectOutputFiles` (server.go:301) encodes artifact bytes with
`base64.StdEncoding.EncodeToString`; `Client.saveOutputFiles`
(client.go:554) decodes with `base64.StdEncoding.DecodeString`.
Bytes are modeled as `Nat` values `< 256`. -/

/-- The standard base64 alphabet used by `base64.StdEncoding`. -/
def b64Alphabet : List Char :=
  "ABCDEFGHIJKLMNOPQRSTUVWXYZabcdefghijklmnopqrstuvwxyz0123456789+/".toList

/-- Index-to-character map of the encoder (values `< 64` only arise). -/
def b64EncChar (n : Nat) : Char := b64Alphabet.getD n 'A'

/-- Character lookup of the decoder's decode map. -/
def alphaIdx : List Char → Char → Nat → Option Nat
  | [], _, _ => none
  | x :: rest, c, i => if x = c then some i else alphaIdx rest c (i + 1)

/-- Character-to-index map of the decoder; `none` for characters outside
the alphabet. -/
def b64DecChar (c : Char) : Option Nat := alphaIdx b64Alphabet c 0

/-- Models `base64.StdEncoding.EncodeToString`: groups of three bytes become four
alphabet characters; a final group of one or two bytes is padded with
`'='`. -/
def b64Encode : List Nat → List Char
  | [] => []
  | [b0] =>
    [b64EncChar (b0 / 4), b64EncChar (b0 % 4 * 16), '=', '=']
  | [b0, b1] =>
    [b64EncChar (b0 / 4), b64EncChar (b0 % 4 * 16 + b1 / 16),
     b64EncChar (b1 % 16 * 4), '=']
  | b0 :: b1 :: b2 :: rest =>
    b64EncChar (b0 / 4) :: b64EncChar (b0 % 4 * 16 + b1 / 16) ::
    b64EncChar (b1 % 16 * 4 + b2 / 64) :: b64EncChar (b2 % 64) ::
    b64Encode rest

/-- Models `base64.StdEncoding.DecodeString`: consumes four characters at a time;
`'='` padding is only legal at the end of the input. `none` models a
decode error. -/
def b64Decode : List Char → Option (List Nat)
  | [] => some []
  | c0 :: c1 :: c2 :: c3 :: rest =>
    match b64DecChar c0, b64DecChar c1 with
    | some s0, some s1 =>
      if c2 = '=' then
        if c3 = '=' ∧ rest = [] then some [s0 * 4 + s1 / 16] else none
      else
        match b64DecChar c2 with
        | some s2 =>
          if c3 = '=' then
            if rest = [] then some [s0 * 4 + s1 / 16, s1 % 16 * 16 + s2 / 4]
            else none
          else
            match b64DecChar c3 with
            | some s3 =>
              match b64Decode rest with
              | some bs =>
                some ((s0 * 4 + s1 / 16) :: (s1 % 16 * 16 + s2 / 4) ::
                      (s2 % 4 * 64 + s3) :: bs)
              | none => none
            | none => none
        | none => none
    | _, _ => none
  | _ => none

/-! ## path/filepath.Match

`Server.isOutputFileNormalized` (server.go:332-350) matches output-path
glob patterns with `filepath.Match`.  The embedding below follows the Go
implementation (`scanChunk`/`matchChunk`/`getEsc` in
path/filepath/match.go) on `List Char`, with `'/'` as the separator.
`ErrBadPattern` is modeled as `Except.error ()`. -/

/-- Function `getEsc` of match.go: reads one (possibly `'\'`-escaped) character of a
character class; a class may not start a range at `'-'` or `']'` and must
have at least one character left after the one read. -/
def getEsc : List Char → Except Unit (Char × List Char)
  | [] => .error ()
  | c :: rest =>
    if c = '-' ∨ c = ']' then .error ()
    else if c = '\\' then
      match rest with
      | [] => .error ()
      | r :: rest2 => if rest2.isEmpty then .error () else .ok (r, rest2)
    else if rest.isEmpty then .error () else .ok (c, rest)

/-- The range-parsing loop of `matchChunk`'s `'['` case: folds every
`lo`-`hi` range of the class over the candidate character `r`, returning
whether any range matched and the chunk after the closing `']'`. -/
def classRanges : Nat → List Char → Char → Bool → Nat → Except Unit (Bool × List Char)
  | 0, _, _, _, _ => .error ()
  | fuel + 1, chunk, r, acc, nrange =>
    match chunk with
    | ']' :: rest =>
      if 0 < nrange then .ok (acc, rest) else .error ()
    | _ =>
      match getEsc chunk with
      | .error _ => .error ()
      | .ok (lo, chunk1) =>
        match chunk1 with
        | '-' :: chunk2 =>
          match getEsc chunk2 with
          | .error _ => .error ()
          | .ok (hi, chunk3) =>
            classRanges fuel chunk3 r
              (acc || (decide (lo.toNat ≤ r.toNat) && decide (r.toNat ≤ hi.toNat)))
              (nrange + 1)
        | _ =>
          classRanges fuel chunk1 r
            (acc || (decide (lo.toNat ≤ r.toNat) && decide (r.toNat ≤ lo.toNat)))
            (nrange + 1)

/-- Function `matchChunk` of match.go: checks whether `chunk` (which contains no
unescaped `'*'`) matches a leading fragment of `s`; `.ok (some rest)` is a
match leaving `rest`, `.ok none` a failed match, `.error` a bad pattern.
The `failed` flag keeps scanning for pattern errors after a mismatch,
exactly as the Go loop does. -/
def matchChunkF : Nat → List Char → List Char → Bool → Except Unit (Option (List Char))
  | 0, _, _, _ => .error ()
  | fuel + 1, chunk, s, failed =>
    match chunk with
    | [] => .ok (if failed then none else some s)
    | c :: chunkRest =>
      let failed1 := failed || s.isEmpty
      if c = '[' then
        let r := if failed1 then Char.ofNat 0 else s.headD (Char.ofNat 0)
        let s1 := if failed1 then s else s.tail
        match chunkRest with
        | '^' :: chunk1 =>
          match classRanges fuel chunk1 r false 0 with
          | .error _ => .error ()
          | .ok (found, chunk2) =>
            matchChunkF fuel chunk2 s1 (failed1 || (found == true))
        | chunk1 =>
          match classRanges fuel chunk1 r false 0 with
          | .error _ => .error ()
          | .ok (found, chunk2) =>
            matchChunkF fuel chunk2 s1 (failed1 || (found == false))
      else if c = '?' then
        if failed1 then matchChunkF fuel chunkRest s true
        else if s.headD (Char.ofNat 0) = '/' then matchChunkF fuel chunkRest s.tail true
        else matchChunkF fuel chunkRest s.tail false
      else if c = '\\' then
        match chunkRest with
        | [] => .error ()
        | ec :: chunkRest2 =>
          if failed1 then matchChunkF fuel chunkRest2 s true
          else if s.headD (Char.ofNat 0) = ec then matchChunkF fuel chunkRest2 s.tail false
          else matchChunkF fuel chunkRest2 s.tail true
      else
        if failed1 then matchChunkF fuel chunkRest s true
        else if s.headD (Char.ofNat 0) = c then matchChunkF fuel chunkRest s.tail false
        else matchChunkF fuel chunkRest s.tail true

/-- Leading-star detection of `scanChunk`. -/
def hasLeadingStar : List Char → Bool
  | '*' :: _ => true
  | _ => false

/-- Collapse the run of leading `'*'`s of a pattern (`scanChunk`). -/
def dropLeadingStars : List Char → List Char
  | '*' :: rest => dropLeadingStars rest
  | p => p

/-- Body scan of `scanChunk`: cuts the pattern at the next unescaped
`'*'` outside a character class, returning `(chunk, rest)`. -/
def scanChunkBody : List Char → Bool → List Char × List Char
  | [], _ => ([], [])
  | c :: rest, inrange =>
    if c = '\\' then
      match rest with
      | [] => (['\\'], [])
      | c2 :: rest2 =>
        let pr := scanChunkBody rest2 inrange
        ('\\' :: c2 :: pr.1, pr.2)
    else if c = '[' then
      let pr := scanChunkBody rest true
      (c :: pr.1, pr.2)
    else if c = ']' then
      let pr := scanChunkBody rest false
      (c :: pr.1, pr.2)
    else if c = '*' then
      if inrange then
        let pr := scanChunkBody rest inrange
        (c :: pr.1, pr.2)
      else ([], c :: rest)
    else
      let pr := scanChunkBody rest inrange
      (c :: pr.1, pr.2)

/-- Function `scanChunk` of match.go: gets the next segment of a pattern — a
leading-star flag, the chunk up to the next star, and the remainder. -/
def scanChunk (pattern : List Char) : Bool × List Char × List Char :=
  let star := hasLeadingStar pattern
  let p := dropLeadingStars pattern
  let pr := scanChunkBody p false
  (star, pr.1, pr.2)

/-- The star-skip loop of `Match`: after a chunk preceded by `'*'` failed
at the current position, retry it at each later position of `name`,
never skipping a separator.  `gm` continues the outer `Match` loop. -/
def starLoop (gm : List Char → List Char → Except Unit Bool)
    (chunk rest : List Char) : List Char → Except Unit Bool
  | [] => .ok false
  | c :: nameRest =>
    if c = '/' then .ok false
    else
      match matchChunkF (chunk.length + 1) chunk nameRest false with
      | .error _ => .error ()
      | .ok (some t) =>
        if rest.isEmpty && !t.isEmpty then starLoop gm chunk rest nameRest
        else gm rest t
      | .ok none => starLoop gm chunk rest nameRest

/-- The main loop of `filepath.Match` over pattern chunks. -/
def goMatchF : Nat → List Char → List Char → Except Unit Bool
  | 0, _, _ => .error ()
  | fuel + 1, pattern, name =>
    match pattern with
    | [] => .ok name.isEmpty
    | _ :: _ =>
      let sc := scanChunk pattern
      let star := sc.1
      let chunk := sc.2.1
      let rest := sc.2.2
      if star && chunk.isEmpty then
        -- a trailing '*' matches the rest of the name unless it has a '/'
        .ok (!(name.contains '/'))
      else
        match matchChunkF (chunk.length + 1) chunk name false with
        | .error _ => .error ()
        | .ok (some t) =>
          if t.isEmpty || !rest.isEmpty then goMatchF fuel rest t
          else if star then starLoop (goMatchF fuel) chunk rest name
          else .ok false
        | .ok none =>
          if star then starLoop (goMatchF fuel) chunk rest name
          else .ok false

/-- Models `filepath.Match pattern name`.  The fuel bound `pattern.length + 1`
dominates the chunk count, so it is never exhausted on these inputs. -/
def goMatch (pattern name : String) : Except Unit Bool :=
  goMatchF (pattern.toList.length + 1) pattern.toList name.toList

/-- The way `Server.isOutputFileNormalized` consumes a `filepath.Match`
result: a pattern counts as matching only when `err == nil && matched`. -/
def matchOk (pattern name : String) : Bool :=
  match goMatch pattern name with
  | .ok b => b
  | .error _ => false

/-! ## path/filepath: Clean, Join, Base, Ext, IsAbs

Modeled for the Unix separator `'/'`; `filepath.ToSlash` and
`filepath.FromSlash` are identities there. -/

/-- Split a character list at `'/'`, keeping empty segments. -/
def splitSlash : List Char → List (List Char)
  | [] => [[]]
  | c :: rest =>
    let r := splitSlash rest
    if c = '/' then [] :: r
    else
      match r with
      | [] => [[c]]
      | seg :: segs => (c :: seg) :: segs

/-- The element loop of `filepath.Clean`: `""` and `"."` segments are
dropped; `".."` pops a previous real segment, is dropped at the root of a
rooted path, and is kept otherwise.  `stack` holds the output segments in
reverse. -/
def cleanSegs (rooted : Bool) : List (List Char) → List (List Char) → List (List Char)
  | [], stack => stack.reverse
  | seg :: rest, stack =>
    if seg = [] ∨ seg = ['.'] then cleanSegs rooted rest stack
    else if seg = ['.', '.'] then
      match stack with
      | top :: stack2 =>
        if top = ['.', '.'] then cleanSegs rooted rest (seg :: stack)
        else cleanSegs rooted rest stack2
      | [] =>
        if rooted then cleanSegs rooted rest []
        else cleanSegs rooted rest [seg]
    else cleanSegs rooted rest (seg :: stack)

/-- Join segments with `'/'`. -/
def joinSegs : List (List Char) → List Char
  | [] => []
  | [seg] => seg
  | seg :: rest => seg ++ '/' :: joinSegs rest

/-- Models `filepath.Clean` on characters. -/
def goCleanL (p : List Char) : List Char :=
  match p with
  | [] => ['.']
  | c :: _ =>
    let rooted := c = '/'
    let segs := cleanSegs rooted (splitSlash p) []
    let out := joinSegs segs
    if rooted then '/' :: out
    else if out = [] then ['.'] else out

/-- Models `filepath.Clean`. -/
def goClean (p : String) : String := String.mk (goCleanL p.toList)

/-- Models `filepath.Join` of two elements: empty elements are dropped, the rest
are joined with `'/'` and the result is cleaned; `Join` of only empty
elements is `""`. -/
def goJoin (a b : String) : String :=
  if a = "" ∧ b = "" then ""
  else if a = "" then goClean b
  else if b = "" then goClean a
  else goClean (String.mk (a.toList ++ '/' :: b.toList))

/-- Models `filepath.Base`: last element of the path after stripping trailing
slashes; `"."` for the empty path, `"/"` for a path of only slashes. -/
def goBase (p : String) : String :=
  if p = "" then "."
  else
    let cs := (p.toList.reverse).dropWhile (fun c => c = '/')
    if cs = [] then "/"
    else String.mk ((cs.takeWhile (fun c => c != '/')).reverse)

/-- Models `filepath.Ext`: the suffix of the path starting at its final dot,
empty if the last element has no dot.  Scans the reversed path. -/
def goExtAux : List Char → List Char → List Char
  | [], _ => []
  | c :: rest, acc =>
    if c = '/' then []
    else if c = '.' then c :: acc
    else goExtAux rest (c :: acc)

/-- Models `filepath.Ext`. -/
def goExt (p : String) : String := String.mk (goExtAux p.toList.reverse [])

/-- Models `filepath.IsAbs` on Unix: the path starts with `'/'`. -/
def filepathIsAbs (p : String) : Bool :=
  match p.toList with
  | '/' :: _ => true
  | _ => false

/-- Models `filepath.ToSlash`, which is the identity with separator `'/'`. -/
def toSlash (p : String) : String := p

/-- Models `filepath.FromSlash`, which is the identity with separator `'/'`. -/
def fromSlash (p : String) : String := p

/-- Is `p` the directory `root` itself or lexically underneath it? -/
def hasPre : List Char → List Char → Bool
  | [], _ => true
  | _ :: _, [] => false
  | c :: pre, d :: s => c = d && hasPre pre s

/-- Whether `p` is inside the sandbox rooted at `root` (equal to it or under it). -/
def isUnder (root p : String) : Bool :=
  p = root || hasPre (root.toList ++ ['/']) p.toList

/-! ## strings.Fields

`Server.buildCommand` (server.go:190) splits the command line with
`strings.Fields`, which splits around runs of white space.  White space is
`unicode.IsSpace`; the Latin-1 range of that predicate is modeled (wider
Unicode space runes do not occur in commands). -/

/-- Latin-1 `unicode.IsSpace`. -/
def goIsSpace (c : Char) : Bool :=
  c = ' ' || c = '\t' || c = '\n' || c = Char.ofNat 11 || c = Char.ofNat 12 ||
  c = '\r' || c = Char.ofNat 0x85 || c = Char.ofNat 0xA0

/-- Accumulating loop of `strings.Fields`; `acc` holds the current field
reversed. -/
def fieldsAux : List Char → List Char → List String
  | [], acc => if acc.isEmpty then [] else [String.mk acc.reverse]
  | c :: rest, acc =>
    if goIsSpace c then
      if acc.isEmpty then fieldsAux rest []
      else String.mk acc.reverse :: fieldsAux rest []
    else fieldsAux rest (c :: acc)

/-- Models `strings.Fields`. -/
def stringsFields (s : String) : List String := fieldsAux s.toList []

/-! ## Data model (types.go) and the coordinator's own version -/

/-- The `Version` constant of the build (main source file). -/
def Version : String := "1.0.0"

/-- Structure `BuildRequest` of types.go.  Maps are association lists. -/
structure BuildRequest where
  id : String
  environment : String
  command : String
  projectDir : String
  executionDir : String
  outputPaths : List String
  envVars : List (String × String)
  files : List (String × String)
  projectName : String
deriving DecidableEq

/-- Structure `BuildResponse` of types.go.  `outputFiles` is `none` when the field
is absent (`omitempty`, never assigned). -/
structure BuildResponse where
  id : String
  success : Bool
  output : String
  error : String
  outputFiles : Option (List (String × String))
deriving DecidableEq

/-- The fields of `ServerInfo` the claims consult. -/
structure ServerInfoSt where
  id : String
  version : String
deriving DecidableEq

/-! ## Coordinator: correlation layer (client.go)

`Client.pendingBuilds` is a map from correlation id to a one-shot channel;
only its key set and the delivery decision matter, so the map is a list of
keys.  `delete` removes a key, as Go's map delete does. -/

/-- Membership of an id in the pending map (`_, exists := m[id]`). -/
def memId : List String → String → Bool
  | [], _ => false
  | x :: rest, id => if x = id then true else memId rest id

/-- Go map deletion `delete(m, id)` on the pending-map key set. -/
def delId : List String → String → List String
  | [], _ => []
  | x :: rest, id => if x = id then delId rest id else x :: delId rest id

/-- Coordinator-side view of one worker connection: the pending
correlation ids and the connection's busy flag. -/
structure ConnSt where
  pending : List String
  busy : Bool
deriving DecidableEq

/-- One iteration of the response loop of `Client.handleServerConnection`
(client.go:161-181) after decoding a `BuildResponse` with id `respID`:
deliver into the slot and delete it when one is registered, otherwise do
nothing; in both cases clear the connection's busy flag.  The returned
`Bool` says whether a waiting caller received the result. -/
def respLoopStep (st : ConnSt) (respID : String) : ConnSt × Bool :=
  if memId st.pending respID then
    ({ pending := delId st.pending respID, busy := false }, true)
  else
    ({ pending := st.pending, busy := false }, false)

/-- The timeout branch of `Client.SubmitBuild` (client.go:327-334) and
`Client.SubmitBuildToServer` (client.go:429-435): the correlation slot is
deleted; the busy flag is not touched. -/
def timeoutStep (st : ConnSt) (buildID : String) : ConnSt :=
  { st with pending := delId st.pending buildID }

/-! ## Coordinator: submission paths (client.go) -/

/-- Coordinator-side state of the resolved target connection. -/
structure ServerConnSt where
  version : String
  busy : Bool
deriving DecidableEq

/-- The distinguishable submission errors of the modeled region. -/
inductive SubmitError where
  | versionMismatch
  | serverBusy
  | sendFailed
deriving DecidableEq

deriving instance DecidableEq for Except

/-- Result of the send phase of a submission: the target connection, the
pending map, whether an encode of the `BuildRequest` onto the socket was
attempted, and the outcome. -/
structure SubmitStep where
  server : ServerConnSt
  pending : List String
  sent : Bool
  result : Except SubmitError Unit
deriving DecidableEq

/-- Models `Client.SubmitBuild`, lines 270-306: the target was picked by
`findAvailableServer` (busy = false).  Version gate, then slot
registration, then busy marking, then the send; on send failure the busy
flag is unmarked and the slot deleted.  `sendOk` is the transport
oracle for `encoder.Encode(request)`. -/
def submitBuild (sendOk : Bool) (buildID : String)
    (server : ServerConnSt) (pending : List String) : SubmitStep :=
  if server.version ≠ Version then
    { server := server, pending := pending, sent := false,
      result := .error .versionMismatch }
  else
    let pending1 := buildID :: pending
    let server1 : ServerConnSt := { server with busy := true }
    if sendOk then
      { server := server1, pending := pending1, sent := true, result := .ok () }
    else
      { server := { server1 with busy := false },
        pending := delId pending1 buildID, sent := true,
        result := .error .sendFailed }

/-- Models `Client.SubmitBuildToServer`, lines 373-406: version gate, busy
check-and-set, slot registration, send; same send-failure cleanup. -/
def submitBuildToServer (sendOk : Bool) (buildID : String)
    (server : ServerConnSt) (pending : List String) : SubmitStep :=
  if server.version ≠ Version then
    { server := server, pending := pending, sent := false,
      result := .error .versionMismatch }
  else if server.busy then
    { server := server, pending := pending, sent := false,
      result := .error .serverBusy }
  else
    let server1 : ServerConnSt := { server with busy := true }
    let pending1 := buildID :: pending
    if sendOk then
      { server := server1, pending := pending1, sent := true, result := .ok () }
    else
      { server := { server1 with busy := false },
        pending := delId pending1 buildID, sent := true,
        result := .error .sendFailed }

/-- Registration decision of `Client.tryConnectToServer`
(client.go:113-141): `decoded` is the handshake decode result; an identity
whose id lacks the `server-` marker is discarded; a version mismatch is
only logged (lines 127-130) and the identity is still added to the
discovered set. -/
def tryConnectRegister (decoded : Option ServerInfoSt)
    (discovered : List (String × ServerInfoSt)) (addr : String) :
    List (String × ServerInfoSt) :=
  match decoded with
  | none => discovered
  | some info =>
    if !(hasPre "server-".toList info.id.toList) then discovered
    else (addr, info) :: discovered

/-! ## Worker: sandbox paths and command construction (server.go) -/

/-- Path computed by `Server.createProjectDirectory` (server.go:231-241):
the per-job sandbox directory `filepath.Join(tempDir, request.ProjectName)`
that `os.MkdirAll` then creates. -/
def createProjectDirPath (tempDir projectName : String) : String :=
  goJoin tempDir projectName

/-- Path computed by `Server.writeProjectFiles` (server.go:244-263) for
one entry of the files map:
`filepath.Join(projectDir, filepath.FromSlash(relativePath))`.  The file is
written there and its parent directories are created. -/
def writeProjectFilePath (projectDir relativePath : String) : String :=
  goJoin projectDir (fromSlash relativePath)

/-- The command the worker will spawn: program name, arguments and working
directory, as assembled by `Server.buildCommand`. -/
structure GoCmd where
  name : String
  args : List String
  dir : String
deriving DecidableEq

/-- Execution-directory resolution inside `Server.buildCommand`
(server.go:198-205): empty falls back to the sandbox directory, relative
paths are joined under it, absolute paths are used verbatim. -/
def resolveExecutionDir (projectDir executionDir : String) : String :=
  if executionDir = "" then projectDir
  else if filepathIsAbs executionDir = false then goJoin projectDir executionDir
  else executionDir

/-- Models `Server.buildCommand` (server.go:188-228).  `mkdirAllErr` is the
filesystem oracle for the `os.MkdirAll` call on the resolved execution
directory (`none` = created or already present).  The environment overlay
(lines 220-225) does not affect any claim and is not carried in `GoCmd`. -/
def buildCommand (mkdirAllErr : String → Option String)
    (request : BuildRequest) (projectDir : String) : Except String GoCmd :=
  match stringsFields request.command with
  | [] => .error "empty command in build request"
  | compiler :: args =>
    match mkdirAllErr (resolveExecutionDir projectDir request.executionDir) with
    | some e => .error (String.append "failed to create execution directory: " e)
    | none =>
      .ok { name := compiler, args := args,
            dir := resolveExecutionDir projectDir request.executionDir }

/-! ## Worker: request processing and the connection loop (server.go) -/

/-- Oracle for the effects `Server.processBuildRequest` performs: the
configured temporary root, the outcomes of the two `os.MkdirAll`/write
phases, of running the command (`cmd.CombinedOutput`), and of
`collectOutputFiles`. -/
structure WorkerWorld where
  tempDir : String
  mkdirProjectErr : Option String
  writeFilesErr : Option String
  mkdirExecErr : String → Option String
  execOutput : String
  execErr : Option String
  collectResult : Except String (List (String × String))

/-- Models `Server.processBuildRequest` (server.go:122-185).  Every failure up to
and including the command run produces `success = false` with the error
text the code formats; after a zero-exit run the job is a success, and a
`collectOutputFiles` error is only logged, leaving `outputFiles` unset. -/
def processBuildRequest (w : WorkerWorld) (request : BuildRequest) : BuildResponse :=
  match w.mkdirProjectErr with
  | some e =>
    { id := request.id, success := false, output := "",
      error := String.append "Failed to create project directory: " e,
      outputFiles := none }
  | none =>
    match w.writeFilesErr with
    | some e =>
      { id := request.id, success := false, output := "",
        error := String.append "Failed to write project files: " e,
        outputFiles := none }
    | none =>
      match buildCommand w.mkdirExecErr request
          (createProjectDirPath w.tempDir request.projectName) with
      | .error e =>
        { id := request.id, success := false, output := "", error := e,
          outputFiles := none }
      | .ok _cmd =>
        match w.execErr with
        | some e =>
          { id := request.id, success := false, output := w.execOutput,
            error := e, outputFiles := none }
        | none =>
          match w.collectResult with
          | .error _ =>
            { id := request.id, success := true, output := w.execOutput,
              error := "", outputFiles := none }
          | .ok files =>
            { id := request.id, success := true, output := w.execOutput,
              error := "", outputFiles := some files }

/-- The request loop of `Server.handleClientConnection` (server.go:98-113):
decode a request, process it, answer, repeat; only a decode failure
(`none`) ends the loop.  A job-level failure inside
`processBuildRequest` does not. -/
def connLoop (w : WorkerWorld) : List (Option BuildRequest) → List BuildResponse
  | [] => []
  | none :: _ => []
  | some r :: rest => processBuildRequest w r :: connLoop w rest

/-! ## Worker: output-artifact selection (server.go) -/

/-- Models `Server.isOutputFileNormalized` (server.go:332-350): an empty pattern
list matches everything; otherwise a file matches when its normalized
relative path or its base name matches some pattern under
`filepath.Match`. -/
def isOutputFileNormalized (normalizedPath : String) (outputPaths : List String) : Bool :=
  if outputPaths.isEmpty then true
  else
    outputPaths.any fun pattern =>
      let patternNorm := toSlash pattern
      matchOk patternNorm normalizedPath || matchOk patternNorm (goBase normalizedPath)

/-! ## Coordinator: project-tree reading (client.go) -/

/-- One entry produced by `filepath.WalkDir(workdir, ...)`, carrying its
path relative to `workdir` (WalkDir visits `workdir ++ "/" ++ relPath`),
whether it is a directory, its size and its content.  Read errors abort
the whole walk in the code and are outside this model. -/
structure WalkEntry where
  relPath : String
  isDir : Bool
  size : Nat
  content : String
deriving DecidableEq

/-- ASCII `strings.ToLower` (the extensions compared against are ASCII). -/
def asciiLower (s : String) : String :=
  String.mk (s.toList.map fun c =>
    if 'A' ≤ c ∧ c ≤ 'Z' then Char.ofNat (c.toNat + 32) else c)

/-- The extension skip list of `Client.readProjectFiles` (client.go:518). -/
def isSkippedExt (ext : String) : Bool :=
  ext = ".exe" || ext = ".dll" || ext = ".so" || ext = ".dylib" ||
  ext = ".o" || ext = ".obj"

/-- Models `Client.readProjectFiles` (client.go:492-548): walk the project tree;
skip directories, files over `1024*1024` bytes and files with a skipped
extension; store every other file's content keyed by its slash-normalized
relative path (`filepath.Rel(workdir, path)` is `relPath` for
WalkDir-produced paths). -/
def readProjectFiles (workdir : String) : List WalkEntry → List (String × String)
  | [] => []
  | e :: rest =>
    if e.isDir then readProjectFiles workdir rest
    else if 1048576 < e.size then readProjectFiles workdir rest
    else if isSkippedExt (asciiLower (goExt (String.mk (workdir.data ++ '/' :: e.relPath.data)))) then
      readProjectFiles workdir rest
    else (toSlash e.relPath, e.content) :: readProjectFiles workdir rest

/-! # Theorems -/

/-! ## Shared helper lemmas -/

theorem b64DecChar_b64EncChar (n : Nat) (h : n < 64) :
    b64DecChar (b64EncChar n) = some n := by
  have hall : ∀ m : Fin 64, b64DecChar (b64EncChar m.val) = some m.val := by decide
  exact hall ⟨n, h⟩

theorem b64EncChar_ne_pad (n : Nat) (h : n < 64) : b64EncChar n ≠ '=' := by
  have hall : ∀ m : Fin 64, b64EncChar m.val ≠ '=' := by decide
  exact hall ⟨n, h⟩

/-! ## C4: transport-encoding round trip -/

/-- C4: for all artifact byte contents `B`, decoding the worker's
transport encoding (`base64.StdEncoding` in `Server.collectOutputFiles`)
with the coordinator's decoding (`Client.saveOutputFiles`) yields exactly
`B`: `decode(encode(B)) == B`. -/
theorem base64_roundtrip (B : List Nat) (h : ∀ b ∈ B, b < 256) :
    b64Decode (b64Encode B) = some B := by
  induction B using b64Encode.induct with
  | case1 => rfl
  | case2 b0 =>
    have hb0 : b0 < 256 := h b0 (by simp)
    simp only [b64Encode, b64Decode,
      b64DecChar_b64EncChar (b0 / 4) (by omega),
      b64DecChar_b64EncChar (b0 % 4 * 16) (by omega)]
    simp only [if_pos rfl, and_self, reduceIte, Option.some.injEq, List.cons.injEq,
      and_true]
    omega
  | case3 b0 b1 =>
    have hb0 : b0 < 256 := h b0 (by simp)
    have hb1 : b1 < 256 := h b1 (by simp)
    simp only [b64Encode, b64Decode,
      b64DecChar_b64EncChar (b0 / 4) (by omega),
      b64DecChar_b64EncChar (b0 % 4 * 16 + b1 / 16) (by omega),
      b64DecChar_b64EncChar (b1 % 16 * 4) (by omega),
      if_neg (b64EncChar_ne_pad (b1 % 16 * 4) (by omega))]
    simp only [if_pos rfl, reduceIte, Option.some.injEq, List.cons.injEq, and_true]
    constructor <;> omega
  | case4 b0 b1 b2 rest ih =>
    have hb0 : b0 < 256 := h b0 (by simp)
    have hb1 : b1 < 256 := h b1 (by simp)
    have hb2 : b2 < 256 := h b2 (by simp)
    have hrest : ∀ b ∈ rest, b < 256 := fun b hb => h b (by simp [hb])
    simp only [b64Encode, b64Decode,
      b64DecChar_b64EncChar (b0 / 4) (by omega),
      b64DecChar_b64EncChar (b0 % 4 * 16 + b1 / 16) (by omega),
      b64DecChar_b64EncChar (b1 % 16 * 4 + b2 / 64) (by omega),
      b64DecChar_b64EncChar (b2 % 64) (by omega),
      if_neg (b64EncChar_ne_pad (b1 % 16 * 4 + b2 / 64) (by omega)),
      if_neg (b64EncChar_ne_pad (b2 % 64) (by omega)),
      ih hrest]
    simp only [Option.some.injEq, List.cons.injEq, and_true, true_and]
    refine ⟨by omega, by omega, by omega⟩

/-- Witness for C4 at a concrete artifact content. -/
theorem base64_roundtrip_witness :
    b64Decode (b64Encode [0, 1, 255, 100, 42]) = some [0, 1, 255, 100, 42] :=
  base64_roundtrip [0, 1, 255, 100, 42] (by decide)

/-! ## C3: output-pattern glob matching -/

/-- C3: an empty output-path pattern list matches every normalized file
path; a non-empty list matches iff the normalized path or its base name
matches some pattern under `filepath.Match` glob semantics; in
particular `*.exe` matches `./build/app.exe` and `./app.exe` but not
`./app.exe.bak`. -/
theorem glob_matching (p : String) (pats : List String) (hne : pats ≠ []) :
    isOutputFileNormalized p [] = true ∧
    (isOutputFileNormalized p pats = true ↔
      ∃ pat ∈ pats,
        matchOk (toSlash pat) p = true ∨ matchOk (toSlash pat) (goBase p) = true) ∧
    isOutputFileNormalized "./build/app.exe" ["*.exe"] = true ∧
    isOutputFileNormalized "./app.exe" ["*.exe"] = true ∧
    isOutputFileNormalized "./app.exe.bak" ["*.exe"] = false := by
  refine ⟨rfl, ?_, by decide, by decide, by decide⟩
  cases pats with
  | nil => exact absurd rfl hne
  | cons q qs =>
    simp [isOutputFileNormalized, List.any_eq_true, Bool.or_eq_true]

/-- Witness for C3 at a concrete path and pattern list. -/
theorem glob_matching_witness :
    isOutputFileNormalized "./out/app" ["out/*"] = true ↔
      ∃ pat ∈ ["out/*"],
        matchOk (toSlash pat) "./out/app" = true ∨
        matchOk (toSlash pat) (goBase "./out/app") = true :=
  (glob_matching "./out/app" ["out/*"] (by decide)).2.1

/-! ## Correlation-map helper lemmas -/

theorem memId_delId (l : List String) (id : String) :
    memId (delId l id) id = false := by
  induction l with
  | nil => rfl
  | cons x rest ih =>
    by_cases hx : x = id <;> simp [delId, memId, hx, ih]

theorem delId_of_not_mem (id : String) :
    ∀ l : List String, memId l id = false → delId l id = l
  | [], _ => rfl
  | x :: rest, h => by
    by_cases hx : x = id
    · simp [memId, hx] at h
    · simp only [memId, if_neg hx] at h
      simp [delId, hx, delId_of_not_mem id rest h]

theorem delId_delId (l : List String) (id : String) :
    delId (delId l id) id = delId l id :=
  delId_of_not_mem id (delId l id) (memId_delId l id)

/-! ## C1: correlation exclusivity -/

/-- C1: for a registered correlation id, delivery and timeout-abandonment
are exclusive.  If the response loop delivers first, the slot is gone and
the timeout's removal is a no-op; if the timeout removes the slot first,
the late result is delivered to no one, discarded without error (the
pending map is unchanged), and the connection's busy flag is cleared by
observing the stray result. -/
theorem correlation_exclusivity (st : ConnSt) (id : String)
    (hmem : memId st.pending id = true) :
    ((respLoopStep st id).2 = true ∧
      timeoutStep (respLoopStep st id).1 id = (respLoopStep st id).1) ∧
    ((respLoopStep (timeoutStep st id) id).2 = false ∧
      (respLoopStep (timeoutStep st id) id).1.pending = (timeoutStep st id).pending ∧
      (respLoopStep (timeoutStep st id) id).1.busy = false) := by
  have h2 : memId (delId st.pending id) id = false := memId_delId _ _
  refine ⟨⟨?_, ?_⟩, ?_, ?_, ?_⟩
  · simp [respLoopStep, hmem]
  · simp [respLoopStep, hmem, timeoutStep, delId_delId]
  · simp [respLoopStep, timeoutStep, h2]
  · simp [respLoopStep, timeoutStep, h2]
  · simp [respLoopStep, timeoutStep, h2]

/-- Witness for C1 on a one-slot pending map. -/
theorem correlation_exclusivity_witness :
    (respLoopStep ⟨["ab12cd34"], true⟩ "ab12cd34").2 = true ∧
    (respLoopStep (timeoutStep ⟨["ab12cd34"], true⟩ "ab12cd34") "ab12cd34").2 = false :=
  ⟨(correlation_exclusivity ⟨["ab12cd34"], true⟩ "ab12cd34" (by decide)).1.1,
   (correlation_exclusivity ⟨["ab12cd34"], true⟩ "ab12cd34" (by decide)).2.1⟩

/-! ## C2: version gate at submission, tolerance at discovery -/

/-- C2: a submission in either mode against a target whose advertised
version differs from the coordinator's `Version` returns the
version-mismatch error with the whole connection state unchanged — no
request is sent, no correlation slot is registered, and the busy flag is
untouched.  At discovery time a mismatched version is only logged: an
identity with the `server-` prefix is registered regardless of its
version. -/
theorem version_gate (sendOk : Bool) (buildID : String) (server : ServerConnSt)
    (pending : List String) (info : ServerInfoSt)
    (discovered : List (String × ServerInfoSt)) (addr : String)
    (hv : server.version ≠ Version)
    (hid : hasPre "server-".toList info.id.toList = true) :
    submitBuild sendOk buildID server pending =
      { server := server, pending := pending, sent := false,
        result := .error .versionMismatch } ∧
    submitBuildToServer sendOk buildID server pending =
      { server := server, pending := pending, sent := false,
        result := .error .versionMismatch } ∧
    tryConnectRegister (some info) discovered addr = (addr, info) :: discovered := by
  refine ⟨?_, ?_, ?_⟩
  · simp [submitBuild, hv]
  · simp [submitBuildToServer, hv]
  · have hstep : tryConnectRegister (some info) discovered addr =
        if !(hasPre "server-".toList info.id.toList) then discovered
        else (addr, info) :: discovered := rfl
    rw [hstep, hid]
    rfl

/-- Witness for C2: a worker advertising version `"0.9.9"`. -/
theorem version_gate_witness :
    submitBuild true "b1" ⟨"0.9.9", false⟩ [] =
      { server := ⟨"0.9.9", false⟩, pending := [], sent := false,
        result := .error .versionMismatch } ∧
    tryConnectRegister (some ⟨"server-h1", "0.9.9"⟩) [] "10.0.0.2:9000" =
      [("10.0.0.2:9000", ⟨"server-h1", "0.9.9"⟩)] :=
  ⟨(version_gate true "b1" ⟨"0.9.9", false⟩ [] ⟨"server-h1", "0.9.9"⟩ []
      "10.0.0.2:9000" (by decide) (by decide)).1,
   (version_gate true "b1" ⟨"0.9.9", false⟩ [] ⟨"server-h1", "0.9.9"⟩ []
      "10.0.0.2:9000" (by decide) (by decide)).2.2⟩

/-! ## C5: send failure restores coordinator state -/

/-- C5: in either mode, when encoding/sending the request fails after the
busy flag was set and the correlation slot registered, the submission
unmarks busy, removes the slot, and returns the transport error — the
final connection state and pending map equal their pre-call values, with
no retry. -/
theorem send_failure_restores_state (buildID : String) (server : ServerConnSt)
    (pending : List String) (hv : server.version = Version)
    (hb : server.busy = false) (hfresh : memId pending buildID = false) :
    submitBuild false buildID server pending =
      { server := server, pending := pending, sent := true,
        result := .error .sendFailed } ∧
    submitBuildToServer false buildID server pending =
      { server := server, pending := pending, sent := true,
        result := .error .sendFailed } := by
  obtain ⟨v, b⟩ := server
  simp only at hv hb
  subst hv; subst hb
  have hdel : delId (buildID :: pending) buildID = pending := by
    simp [delId, delId_of_not_mem buildID pending hfresh]
  refine ⟨?_, ?_⟩
  · simp [submitBuild, hdel]
  · simp [submitBuildToServer, hdel]

/-- Witness for C5 with a fresh id against an idle up-to-date worker. -/
theorem send_failure_restores_state_witness :
    submitBuild false "b7" ⟨Version, false⟩ ["other"] =
      { server := ⟨Version, false⟩, pending := ["other"], sent := true,
        result := .error .sendFailed } :=
  (send_failure_restores_state "b7" ⟨Version, false⟩ ["other"] rfl rfl (by decide)).1

/-! ## C6: token-less commands fail the job, not the connection -/

theorem fieldsAux_all_space :
    ∀ cs : List Char, (∀ c ∈ cs, goIsSpace c = true) → fieldsAux cs [] = []
  | [], _ => rfl
  | c :: rest, h => by
    have hc : goIsSpace c = true := h c (by simp)
    simp only [fieldsAux, hc, if_true, List.isEmpty_nil]
    exact fieldsAux_all_space rest fun d hd => h d (by simp [hd])

theorem string_append_ne_empty (s t : String) (h : s ≠ "") :
    String.append s t ≠ "" := by
  cases s with
  | mk a =>
    cases t with
    | mk b =>
      intro heq
      apply h
      have hd : a ++ b = ([] : List Char) := congrArg String.data heq
      have ha : a = [] := (List.append_eq_nil.mp hd).1
      rw [ha]

/-- C6: a request whose command has no whitespace-separated tokens makes
the worker fail the job — `success = false` with a non-empty error — while
the connection loop goes on serving subsequent requests; job errors never
tear the connection down. -/
theorem empty_command_fails_job (w : WorkerWorld) (r : BuildRequest)
    (rest : List (Option BuildRequest))
    (hcmd : ∀ c ∈ r.command.toList, goIsSpace c = true) :
    (processBuildRequest w r).success = false ∧
    (processBuildRequest w r).error ≠ "" ∧
    connLoop w (some r :: rest) = processBuildRequest w r :: connLoop w rest := by
  have hfields : stringsFields r.command = [] := fieldsAux_all_space _ hcmd
  refine ⟨?_, ?_, rfl⟩
  · unfold processBuildRequest
    cases w.mkdirProjectErr with
    | some e => rfl
    | none =>
      cases w.writeFilesErr with
      | some e => rfl
      | none => simp [buildCommand, hfields]
  · unfold processBuildRequest
    cases w.mkdirProjectErr with
    | some e =>
      exact string_append_ne_empty "Failed to create project directory: " e (by decide)
    | none =>
      cases w.writeFilesErr with
      | some e =>
        exact string_append_ne_empty "Failed to write project files: " e (by decide)
      | none =>
        simp [buildCommand, hfields]


/-- Witness for C6: an all-whitespace command. -/
theorem empty_command_fails_job_witness :
    (processBuildRequest
      ⟨"/tmp", none, none, fun _ => none, "", none, .ok []⟩
      ⟨"b1", "env", "  \t ", "", "", [], [], [], "p1"⟩).success = false :=
  (empty_command_fails_job
    ⟨"/tmp", none, none, fun _ => none, "", none, .ok []⟩
    ⟨"b1", "env", "  \t ", "", "", [], [], [], "p1"⟩ [] (by decide)).1

/-! ## C7: execution-directory resolution -/

/-- C7: the worker resolves the execution directory as: absolute
`execution_dir` verbatim; empty resolves to the sandbox (project)
directory; any other value is joined under the sandbox directory; and
`os.MkdirAll` is invoked on exactly the resolved directory (creating it
when missing) before the command is built. -/
theorem execution_dir_resolution (mkdirAllErr : String → Option String)
    (request : BuildRequest) (projectDir : String) (cmd : GoCmd)
    (hok : buildCommand mkdirAllErr request projectDir = .ok cmd) :
    cmd.dir = resolveExecutionDir projectDir request.executionDir ∧
    mkdirAllErr cmd.dir = none ∧
    (request.executionDir = "" → cmd.dir = projectDir) ∧
    (filepathIsAbs request.executionDir = true → cmd.dir = request.executionDir) ∧
    (request.executionDir ≠ "" → filepathIsAbs request.executionDir = false →
      cmd.dir = goJoin projectDir request.executionDir) := by
  unfold buildCommand at hok
  split at hok
  · cases hok
  · split at hok
    · cases hok
    · next hmk =>
      injection hok with hcmd
      subst hcmd
      refine ⟨rfl, hmk, ?_, ?_, ?_⟩
      · intro he
        simp [resolveExecutionDir, he]
      · intro habs
        have hne : request.executionDir ≠ "" := by
          intro he
          rw [he] at habs
          cases habs
        simp [resolveExecutionDir, hne, habs]
      · intro hne hrel
        simp [resolveExecutionDir, hne, hrel]

/-- Witness for C7 with a relative execution directory. -/
theorem execution_dir_resolution_witness :
    (GoCmd.mk "go" ["build"] "/tmp/p/out").dir =
      resolveExecutionDir "/tmp/p" "out" :=
  (execution_dir_resolution (fun _ => none)
    ⟨"b1", "env", "go build", "", "out", [], [], [], "p1"⟩ "/tmp/p"
    ⟨"go", ["build"], "/tmp/p/out"⟩ (by decide)).1

/-! ## C10: artifact-collection failure is not job failure -/

/-- C10: when the build command exits zero but `collectOutputFiles`
fails, the worker still returns `success = true`; the collection error is
only logged and the result carries no `output_files` mapping. -/
theorem collect_failure_still_success (w : WorkerWorld) (r : BuildRequest)
    (e : String) (h1 : w.mkdirProjectErr = none) (h2 : w.writeFilesErr = none)
    (h3 : ∃ cmd, buildCommand w.mkdirExecErr r
      (createProjectDirPath w.tempDir r.projectName) = .ok cmd)
    (h4 : w.execErr = none) (h5 : w.collectResult = .error e) :
    (processBuildRequest w r).success = true ∧
    (processBuildRequest w r).error = "" ∧
    (processBuildRequest w r).outputFiles = none := by
  obtain ⟨cmd, hcmd⟩ := h3
  unfold processBuildRequest
  rw [h1, h2, hcmd, h4, h5]
  exact ⟨rfl, rfl, rfl⟩

/-- Witness for C10: a successful run whose artifact walk fails. -/
theorem collect_failure_still_success_witness :
    (processBuildRequest
      ⟨"/tmp", none, none, fun _ => none, "ok", none, .error "walk failed"⟩
      ⟨"b1", "env", "go build", "", "", [], [], [], "p1"⟩).success = true :=
  (collect_failure_still_success
    ⟨"/tmp", none, none, fun _ => none, "ok", none, .error "walk failed"⟩
    ⟨"b1", "env", "go build", "", "", [], [], [], "p1"⟩ "walk failed"
    rfl rfl ⟨⟨"go", ["build"], "/tmp/p1"⟩, by decide⟩ rfl rfl).1

/-! ## C8: project-tree filtering -/

/-- C8: reading the project tree includes exactly the regular files of at
most `1024*1024` bytes whose (case-insensitively lowered) extension is not
one of `.exe .dll .so .dylib .o .obj`, keyed by their slash-normalized
relative path; larger files and those extensions are silently omitted. -/
theorem read_project_files_filter (workdir : String) (entries : List WalkEntry) :
    readProjectFiles workdir entries =
      (entries.filter fun e =>
        !e.isDir && decide (e.size ≤ 1048576) &&
        !(isSkippedExt (asciiLower (goExt
          (String.mk (workdir.data ++ '/' :: e.relPath.data)))))).map
        fun e => (toSlash e.relPath, e.content) := by
  induction entries with
  | nil => rfl
  | cons e rest ih =>
    by_cases h1 : e.isDir
    · simp [readProjectFiles, h1, ih]
    · by_cases h2 : 1048576 < e.size
      · have h2n : ¬ e.size ≤ 1048576 := by omega
        simp [readProjectFiles, h1, h2, h2n, ih]
      · have h2y : e.size ≤ 1048576 := by omega
        by_cases h3 : isSkippedExt (asciiLower (goExt
            (String.mk (workdir.data ++ '/' :: e.relPath.data)))) = true
        · simp [readProjectFiles, h1, h2, h2y, h3, ih]
        · simp only [Bool.not_eq_true] at h3
          simp [readProjectFiles, h1, h2, h2y, h3, ih]

/-! ## C9: no sandbox confinement for `..` paths -/

/-- C9: the worker does not confine materialized files to the sandbox: a
files-map key with `..` segments is written outside the per-job sandbox
directory, and a `project_name` with `..` escapes the temporary root,
because both paths are combined with `filepath.Join` without validation. -/
theorem sandbox_escape :
    writeProjectFilePath "/tmp/boltbuild/project_ab12" "../../../etc/evil.conf" =
      "/etc/evil.conf" ∧
    isUnder "/tmp/boltbuild/project_ab12"
      (writeProjectFilePath "/tmp/boltbuild/project_ab12" "../../../etc/evil.conf") =
      false ∧
    createProjectDirPath "/tmp/boltbuild" "../outside" = "/tmp/outside" ∧
    isUnder "/tmp/boltbuild" (createProjectDirPath "/tmp/boltbuild" "../outside") =
      false := by
  refine ⟨by decide, by decide, by decide, by decide⟩

end Boltbuild
